import Mathlib

/-!
Verification of the tab/session lifecycle manager of the claude-workbench
repository.  The UI components (`TabManager.tsx`, `ClaudeStatusIndicator.tsx`)
are embedded from the sources; the Tab Store itself (the `useTabs` hook) is
not part of the sources, so its operations are modelled from the spec
(§3, §4.1–§4.4).
-/

namespace ClaudeWorkbench

/-- Execution state of a Tab Entity: `idle`, `streaming`, or `closing`
(spec §3, field `state`). -/
inductive TabState
  | idle
  | streaming
  | closing
deriving DecidableEq

/-- Modelled from the spec: the Tab Entity record (§3).  The `useTabs` hook
holding the authoritative store is missing from the sources, so the record is
taken from the spec's data model: stable `id`, optional session binding,
optional project path, execution state, unsaved-change flag, derived
active flag and zero-based order position. -/
structure Tab where
  id : Nat
  sessionId : Option Nat
  projectPath : Option String
  state : TabState
  hasUnsavedChanges : Bool
  isActive : Bool
  order : Nat
deriving DecidableEq

instance : Inhabited Tab :=
  ⟨{ id := 0, sessionId := none, projectPath := none, state := .idle,
     hasUnsavedChanges := false, isActive := false, order := 0 }⟩

/-- Modelled from the spec: the Tab Store (§3), an ordered collection of Tab
Entities plus a counter generating fresh identifiers (ids are unique for the
store lifetime, spec invariant 4). -/
structure TabStore where
  tabs : List Tab
  nextId : Nat
deriving DecidableEq

/-- Index of the first tab carrying `id`, mirroring the JavaScript
`tabs.findIndex(t => t.id === x)` probe used by the manager (`-1` becomes
`none`). -/
def findTabIdx (l : List Tab) (id : Nat) : Option Nat :=
  match l with
  | [] => none
  | t :: ts => if t.id = id then some 0 else (findTabIdx ts id).map (· + 1)

/-- Reassign contiguous `order` values starting from `i` (the spec's
"renumbers `order` for the remainder", §4.1). -/
def renumberFrom : List Tab → Nat → List Tab
  | [], _ => []
  | t :: ts, i => { t with order := i } :: renumberFrom ts (i + 1)

/-- Renumber a tab list with zero-based contiguous `order` values. -/
def renumber (l : List Tab) : List Tab := renumberFrom l 0

/-- Set `isActive` on the tab at position `j`, leaving the rest alone. -/
def activateIdx : List Tab → Nat → List Tab
  | [], _ => []
  | t :: ts, 0 => { t with isActive := true } :: ts
  | t :: ts, j + 1 => t :: activateIdx ts j

/-- Insert a tab at position `j` (appending when `j` exceeds the length),
the splice step of the Reorder Engine (§4.2). -/
def insertAt : List Tab → Nat → Tab → List Tab
  | l, 0, x => x :: l
  | [], _ + 1, x => [x]
  | t :: ts, j + 1, x => t :: insertAt ts j x

/-- Number of tabs whose `isActive` flag is set. -/
def countActive (l : List Tab) : Nat := l.countP (fun t => t.isActive)

/-- Modelled from the spec: `createTab` (§4.1) inserts a new Tab Entity at
the end of the order, makes it active and deactivates the previous active
tab; the fresh id comes from the store's counter. -/
def createTab (s : TabStore) (sessionId : Option Nat)
    (projectPath : Option String) : TabStore × Nat :=
  let t : Tab :=
    { id := s.nextId, sessionId := sessionId, projectPath := projectPath,
      state := .idle, hasUnsavedChanges := false, isActive := true,
      order := s.tabs.length }
  ({ tabs := (s.tabs.map fun u => { u with isActive := false }) ++ [t],
     nextId := s.nextId + 1 }, s.nextId)

/-- Modelled from the spec: `switchToTab` (§4.1) sets `isActive` on the
target and clears it elsewhere; a no-op for an unknown id. -/
def switchToTab (s : TabStore) (id : Nat) : TabStore :=
  match findTabIdx s.tabs id with
  | none => s
  | some _ => { s with tabs := s.tabs.map fun t => { t with isActive := t.id = id } }

/-- Result of `closeTab`: either the tab was closed, or a pending
confirmation referencing the tab id is returned (spec §4.1, §4.3). -/
inductive CloseResult
  | closed
  | needsConfirmation (tabId : Nat)
deriving DecidableEq

/-- Remove the tab at position `i` from `l`, renumber, and re-derive the
active pointer: when the removed tab was active, activate the tab now at the
same order position, or the nearest lower position, or none if the store
becomes empty (spec §4.1). -/
def removeTabAt (l : List Tab) (i : Nat) : List Tab :=
  if (l.getD i default).isActive ∧ renumber (l.eraseIdx i) ≠ [] then
    activateIdx (renumber (l.eraseIdx i)) (min i ((renumber (l.eraseIdx i)).length - 1))
  else renumber (l.eraseIdx i)

/-- Modelled from the spec: `closeTab` (§4.1, §4.3).  An unknown id is a
logged no-op; a tab with unsaved changes and no force flag yields a pending
confirmation without mutation; otherwise the entity is removed, the order is
renumbered and `isActive` re-derived. -/
def closeTab (s : TabStore) (id : Nat) (force : Bool) : TabStore × CloseResult :=
  match findTabIdx s.tabs id with
  | none => (s, .closed)
  | some i =>
    if (s.tabs.getD i default).hasUnsavedChanges ∧ ¬force then
      (s, .needsConfirmation id)
    else
      ({ s with tabs := removeTabAt s.tabs i }, .closed)

/-- Modelled from the spec: `reorderTabs` (§4.1, §4.2).  A no-op when the
indices are equal or out of bounds; otherwise the element at `fromIdx` is
removed and reinserted at `toIdx` and the order renumbered. -/
def reorderTabs (s : TabStore) (fromIdx toIdx : Nat) : TabStore :=
  if fromIdx = toIdx ∨ s.tabs.length ≤ fromIdx ∨ s.tabs.length ≤ toIdx then s
  else
    { s with tabs :=
        renumber (insertAt (s.tabs.eraseIdx fromIdx) toIdx (s.tabs.getD fromIdx default)) }

/-- Modelled from the spec: `updateTabStreamingStatus` (§4.1) sets `state`
to streaming/idle, optionally rebinds the session, and flips
`hasUnsavedChanges` according to the streaming policy; it never touches
`isActive` or the order. -/
def updateTabStreamingStatus (s : TabStore) (id : Nat) (isStreaming : Bool)
    (sessionId : Option Nat) : TabStore :=
  { s with tabs := s.tabs.map fun t =>
      if t.id = id then
        { t with
          state := if isStreaming then .streaming else .idle,
          sessionId := match sessionId with
            | some sid => some sid
            | none => t.sessionId,
          hasUnsavedChanges := isStreaming }
      else t }

/-- Whole-workbench state: the Tab Store plus the external Session Bindings
(conversation data keyed by session id), which the store must never
destroy (spec §4.4). -/
structure Workbench where
  store : TabStore
  sessions : List (Nat × String)
deriving DecidableEq

/-- Modelled from the spec: `detachTab` (§4.1, §4.4).  The window-management
collaborator's answer is passed in as `windowLabel` (`none` models failure).
On failure the Tab Entity remains in the local store unchanged; on success
the tab is removed from the local order exactly as in `closeTab`, and the
Session Bindings are never touched. -/
def detachTab (w : Workbench) (id : Nat) (windowLabel : Option String) :
    Workbench × Option String :=
  match findTabIdx w.store.tabs id with
  | none => (w, none)
  | some i =>
    match windowLabel with
    | none => (w, none)
    | some lbl =>
      ({ w with store := { w.store with tabs := removeTabAt w.store.tabs i } },
       some lbl)

/-- Operations of the Tab Store covered by the invariant claim: creation,
closure and reordering. -/
inductive TabOp
  | create (sessionId : Option Nat) (projectPath : Option String)
  | close (id : Nat) (force : Bool)
  | reorder (fromIdx toIdx : Nat)

/-- Apply one Tab Store operation. -/
def applyOp (s : TabStore) : TabOp → TabStore
  | .create sid pp => (createTab s sid pp).1
  | .close id f => (closeTab s id f).1
  | .reorder i j => reorderTabs s i j

/-- Apply a sequence of Tab Store operations from left to right. -/
def applyOps (s : TabStore) (ops : List TabOp) : TabStore := ops.foldl applyOp s

/-- The empty Tab Store the manager starts from. -/
def initialStore : TabStore := { tabs := [], nextId := 0 }

/-- Store invariant (spec §3): contiguous zero-based orders, unique ids
bounded by the id counter, and exactly one active tab when non-empty. -/
def Invariant (s : TabStore) : Prop :=
  s.tabs.map Tab.order = List.range s.tabs.length ∧
  (s.tabs.map Tab.id).Nodup ∧
  (∀ t ∈ s.tabs, t.id < s.nextId) ∧
  countActive s.tabs = (if s.tabs.isEmpty then 0 else 1)

instance (s : TabStore) : Decidable (Invariant s) := by
  unfold Invariant; infer_instance

/-! UI layer, embedded from `src/components/TabManager.tsx`. -/

/-- Outcome of the drop handler: either nothing happens, or `reorderTabs` is
invoked with the given pair of indices. -/
inductive DropAction
  | idle
  | reorder (fromIdx toIdx : Nat)
deriving DecidableEq

/-- Embedded from `handleTabDrop` (TabManager.tsx:95-112): when no tab is
being dragged, or the dragged tab is not found, or its index equals the
target index, the handler clears its transient state and does nothing;
otherwise it invokes `reorderTabs fromIdx targetIdx`. -/
def handleTabDrop (draggedTab : Option Nat) (tabs : List Tab)
    (targetIdx : Nat) : DropAction :=
  match draggedTab with
  | none => .idle
  | some dId =>
    match findTabIdx tabs dId with
    | none => .idle
    | some fromIdx =>
      if fromIdx = targetIdx then .idle else .reorder fromIdx targetIdx

/-- Embedded from `handleCloseTab` (TabManager.tsx:115-122): call
`closeTab tabId force`; when the result asks for confirmation, record the
tab id in `tabToClose` (which opens the confirmation dialog, whose `open`
property is `tabToClose !== null`, TabManager.tsx:509); otherwise
`tabToClose` is left as it was. -/
def handleCloseTab (s : TabStore) (tabToClose : Option Nat) (tabId : Nat)
    (force : Bool) : TabStore × Option Nat :=
  match closeTab s tabId force with
  | (s1, .needsConfirmation tid) => (s1, some tid)
  | (s1, .closed) => (s1, tabToClose)

/-- Embedded from `confirmCloseTab` (TabManager.tsx:125-130): when a tab is
pending confirmation, force-close it and clear `tabToClose`. -/
def confirmCloseTab (s : TabStore) (tabToClose : Option Nat) :
    TabStore × Option Nat :=
  match tabToClose with
  | none => (s, none)
  | some tid => ((closeTab s tid true).1, none)

/-- One mounted view of the Render Surface: a `TabSessionWrapper` inside a
container that is hidden exactly when the tab is inactive. -/
structure TabView where
  tabId : Nat
  mounted : Bool
  visible : Bool
deriving DecidableEq

/-- Embedded from the tab content render (TabManager.tsx:415-435): every tab
in the store is rendered into a persistently mounted wrapper, with the
`hidden` class applied exactly when the tab is not active. -/
def renderSurface (tabs : List Tab) : List TabView :=
  tabs.map fun t => { tabId := t.id, mounted := true, visible := t.isActive }

/-- Force-close each id of `ids` in turn, collecting the results; this is
the `forEach(tab => closeTab(tab.id, true))` loop of the dropdown menu. -/
def closeTabsForce (s : TabStore) (ids : List Nat) : TabStore × List CloseResult :=
  match ids with
  | [] => (s, [])
  | id :: rest =>
    let p := closeTab s id true
    let q := closeTabsForce p.1 rest
    (q.1, p.2 :: q.2)

/-- Embedded from the close-all menu item (TabManager.tsx:394-399):
`tabs.forEach(tab => closeTab(tab.id, true))`. -/
def closeAllTabs (s : TabStore) : TabStore × List CloseResult :=
  closeTabsForce s (s.tabs.map Tab.id)

/-- Embedded from the close-others menu item (TabManager.tsx:400-405):
`tabs.filter(tab => !tab.isActive).forEach(tab => closeTab(tab.id, true))`. -/
def closeOtherTabs (s : TabStore) : TabStore × List CloseResult :=
  closeTabsForce s ((s.tabs.filter fun t => !t.isActive).map Tab.id)

/-! Companion status component, embedded from
`src/components/ClaudeStatusIndicator.tsx`. -/

/-- Connection status of the CLI backend
(ClaudeStatusIndicator.tsx:100). -/
inductive ConnectionStatus
  | checking
  | connected
  | disconnected
  | error
deriving DecidableEq

/-- Status record shown by the indicator (ClaudeStatusIndicator.tsx:102-107);
`hasError` models the presence of the optional error string and
`lastChecked` the optional check timestamp. -/
structure StatusInfo where
  status : ConnectionStatus
  version : Option String
  hasError : Bool
  lastChecked : Option Nat
deriving DecidableEq

/-- One persisted cache entry under `claude_status_cache`: either a
well-formed `{statusInfo, timestamp}` pair or malformed content whose parse
throws (ClaudeStatusIndicator.tsx:47-50). -/
inductive CacheCell
  | valid (statusInfo : StatusInfo) (timestamp : Nat)
  | malformed
deriving DecidableEq

/-- Cache lifetime: 24 hours in milliseconds
(ClaudeStatusIndicator.tsx:45). -/
def CACHE_DURATION : Nat := 24 * 60 * 60 * 1000

/-- Embedded from `loadCachedStatus` (ClaudeStatusIndicator.tsx:52-74):
return the stored status when a cache entry exists, parses, and its age
`now - timestamp` is strictly below `CACHE_DURATION`; `none` otherwise
(missing entry, malformed entry, or stale entry). -/
def loadCachedStatus (cell : Option CacheCell) (now : Nat) : Option StatusInfo :=
  match cell with
  | none => none
  | some .malformed => none
  | some (.valid si ts) =>
    if (now : Int) - (ts : Int) < (CACHE_DURATION : Int) then some si else none

/-- Selected CLI backend of the indicator (ClaudeStatusIndicator.tsx:38). -/
inductive CliType
  | claude
  | codex
  | gemini
deriving DecidableEq

/-- Outcome of one backend availability probe: whether the CLI is installed,
its reported version, and the separately-probed binary path
(ClaudeStatusIndicator.tsx:236-281). -/
structure ApiOutcome where
  installed : Bool
  version : Option String
  path : Option String
deriving DecidableEq

/-- Component-plus-module state of the status indicator: the module-level
`isChecking` guard (ClaudeStatusIndicator.tsx:41), the component state, the
probed path and the persisted cache cell. -/
structure StatusState where
  isChecking : Bool
  statusInfo : StatusInfo
  cliPath : Option String
  selectedCli : CliType
  cache : Option CacheCell
deriving DecidableEq

/-- Acquire the module-level re-entrancy guard
(`isChecking = true`, ClaudeStatusIndicator.tsx:228). -/
def acquireGuard (st : StatusState) : StatusState := { st with isChecking := true }

/-- Release the module-level re-entrancy guard in the `finally` block
(`isChecking = false`, ClaudeStatusIndicator.tsx:306). -/
def releaseGuard (st : StatusState) : StatusState := { st with isChecking := false }

/-- Body of the status check between acquire and release
(ClaudeStatusIndicator.tsx:229-304): publish a `checking` status, probe the
selected backend, publish the result, and persist it to the cache when the
selected CLI is Claude — on the error path an `error` status is published
and cached the same way.  The guard flag is not touched here. -/
def performCheck (st : StatusState) (now : Nat) (api : Except Unit ApiOutcome) :
    StatusState :=
  let st1 := { st with
    statusInfo := { status := .checking, version := none, hasError := false,
                    lastChecked := none },
    cliPath := none }
  match api with
  | .ok r =>
    let newStatus : StatusInfo :=
      { status := if r.installed then .connected else .disconnected,
        version := r.version, hasError := !r.installed, lastChecked := some now }
    { st1 with
      statusInfo := newStatus, cliPath := r.path,
      cache := if st1.selectedCli = .claude then some (.valid newStatus now)
               else st1.cache }
  | .error _ =>
    let errorStatus : StatusInfo :=
      { status := .error, version := none, hasError := true,
        lastChecked := some now }
    { st1 with
      statusInfo := errorStatus, cliPath := none,
      cache := if st1.selectedCli = .claude then some (.valid errorStatus now)
               else st1.cache }

/-- Embedded from `checkClaudeStatus` (ClaudeStatusIndicator.tsx:224-308):
return immediately when the module-level guard is set; otherwise acquire the
guard, perform the check (success or error path), and release the guard in
the `finally` block. -/
def checkClaudeStatus (st : StatusState) (now : Nat)
    (api : Except Unit ApiOutcome) : StatusState :=
  if st.isChecking then st
  else releaseGuard (performCheck (acquireGuard st) now api)

/-- Embedded from `handleRefresh` (ClaudeStatusIndicator.tsx:310-316):
remove the cache entry, then run a fresh status check. -/
def handleRefresh (st : StatusState) (now : Nat)
    (api : Except Unit ApiOutcome) : StatusState :=
  checkClaudeStatus { st with cache := none } now api

/-! Concrete sample data used to evaluate the operations. -/

/-- Sample tab A: id 0, active, first position. -/
def sampleTabA : Tab :=
  { id := 0, sessionId := some 10, projectPath := some "/proj/a", state := .idle,
    hasUnsavedChanges := false, isActive := true, order := 0 }

/-- Sample tab B: id 1, inactive, second position. -/
def sampleTabB : Tab :=
  { id := 1, sessionId := some 11, projectPath := some "/proj/b", state := .idle,
    hasUnsavedChanges := false, isActive := false, order := 1 }

/-- Sample tab C: id 2, inactive, third position. -/
def sampleTabC : Tab :=
  { id := 2, sessionId := none, projectPath := some "/proj/c", state := .idle,
    hasUnsavedChanges := false, isActive := false, order := 2 }

/-- Three-tab sample store [A, B, C] with A active. -/
def sampleStore : TabStore := { tabs := [sampleTabA, sampleTabB, sampleTabC], nextId := 3 }

/-- One-tab store whose tab has unsaved changes. -/
def dirtyTab : Tab :=
  { id := 7, sessionId := some 1, projectPath := none, state := .streaming,
    hasUnsavedChanges := true, isActive := true, order := 0 }

/-- Store holding only the dirty tab. -/
def dirtyStore : TabStore := { tabs := [dirtyTab], nextId := 8 }

/-- Store [A active, B unsaved, C unsaved] exercising the bulk close paths. -/
def mixedStore : TabStore :=
  { tabs := [sampleTabA,
             { sampleTabB with hasUnsavedChanges := true },
             { sampleTabC with hasUnsavedChanges := true }], nextId := 3 }

/-- Sample workbench pairing the three-tab store with one session binding. -/
def sampleWorkbench : Workbench :=
  { store := sampleStore, sessions := [(10, "conversation")] }

/-- Sample status-indicator state: idle guard, checking status, empty cache. -/
def sampleStatusState : StatusState :=
  { isChecking := false,
    statusInfo := { status := .checking, version := none, hasError := false,
                    lastChecked := none },
    cliPath := none, selectedCli := .claude, cache := none }

/-- Sample successful availability probe answer. -/
def sampleApiOk : ApiOutcome :=
  { installed := true, version := some "1.0", path := some "/bin/claude" }

/-- Sample connected status record with a fixed check timestamp. -/
def connectedInfo : StatusInfo :=
  { status := .connected, version := some "1.0", hasError := false,
    lastChecked := some 100 }

/-! Helper lemmas about the list-level building blocks. -/

theorem renumberFrom_length (l : List Tab) (i : Nat) :
    (renumberFrom l i).length = l.length := by
  induction l generalizing i with
  | nil => rfl
  | cons t ts ih => simp [renumberFrom, ih]

theorem renumberFrom_map_order (l : List Tab) (i : Nat) :
    (renumberFrom l i).map Tab.order = List.range' i l.length := by
  induction l generalizing i with
  | nil => rfl
  | cons t ts ih => simp [renumberFrom, List.range'_succ, ih]

theorem renumber_map_order (l : List Tab) :
    (renumber l).map Tab.order = List.range l.length := by
  rw [renumber, renumberFrom_map_order, List.range_eq_range']

theorem renumber_length (l : List Tab) : (renumber l).length = l.length :=
  renumberFrom_length l 0

theorem renumberFrom_map_id (l : List Tab) (i : Nat) :
    (renumberFrom l i).map Tab.id = l.map Tab.id := by
  induction l generalizing i with
  | nil => rfl
  | cons t ts ih => simp [renumberFrom, ih]

theorem renumber_map_id (l : List Tab) : (renumber l).map Tab.id = l.map Tab.id :=
  renumberFrom_map_id l 0

theorem renumberFrom_countActive (l : List Tab) (i : Nat) :
    countActive (renumberFrom l i) = countActive l := by
  induction l generalizing i with
  | nil => rfl
  | cons t ts ih =>
    simp only [renumberFrom, countActive, List.countP_cons] at ih ⊢
    simp [ih]

theorem renumber_countActive (l : List Tab) :
    countActive (renumber l) = countActive l :=
  renumberFrom_countActive l 0

theorem activateIdx_length (l : List Tab) (j : Nat) :
    (activateIdx l j).length = l.length := by
  induction l generalizing j with
  | nil => rfl
  | cons t ts ih =>
    cases j with
    | zero => rfl
    | succ j => simp [activateIdx, ih]

theorem activateIdx_map_id (l : List Tab) (j : Nat) :
    (activateIdx l j).map Tab.id = l.map Tab.id := by
  induction l generalizing j with
  | nil => rfl
  | cons t ts ih =>
    cases j with
    | zero => rfl
    | succ j => simp [activateIdx, ih]

theorem activateIdx_map_order (l : List Tab) (j : Nat) :
    (activateIdx l j).map Tab.order = l.map Tab.order := by
  induction l generalizing j with
  | nil => rfl
  | cons t ts ih =>
    cases j with
    | zero => rfl
    | succ j => simp [activateIdx, ih]

theorem countActive_activateIdx (l : List Tab) (j : Nat)
    (h0 : countActive l = 0) (hj : j < l.length) :
    countActive (activateIdx l j) = 1 := by
  induction l generalizing j with
  | nil => simp at hj
  | cons t ts ih =>
    simp only [countActive, List.countP_cons] at h0 ⊢
    cases j with
    | zero =>
      simp only [activateIdx, List.countP_cons]
      simp at h0 ⊢
      exact h0.1
    | succ j =>
      simp only [activateIdx, List.countP_cons]
      have hts : List.countP (fun t => t.isActive) ts = 0 := by omega
      have := ih j hts (by simp at hj; omega)
      simp only [countActive] at this
      omega

theorem activateIdx_getD (l : List Tab) (j : Nat) (hj : j < l.length) :
    (activateIdx l j).getD j default = { l.getD j default with isActive := true } := by
  induction l generalizing j with
  | nil => simp at hj
  | cons t ts ih =>
    cases j with
    | zero => rfl
    | succ j =>
      simp only [activateIdx, List.getD_cons_succ]
      exact ih j (by simp at hj; omega)

theorem insertAt_length (l : List Tab) (j : Nat) (x : Tab) :
    (insertAt l j x).length = l.length + 1 := by
  induction l generalizing j with
  | nil => cases j <;> rfl
  | cons t ts ih =>
    cases j with
    | zero => rfl
    | succ j => simp [insertAt, ih]

theorem insertAt_perm (l : List Tab) (j : Nat) (x : Tab) :
    List.Perm (insertAt l j x) (x :: l) := by
  induction l generalizing j with
  | nil => cases j <;> simp [insertAt]
  | cons t ts ih =>
    cases j with
    | zero => simp [insertAt]
    | succ j =>
      exact ((ih j).cons t).trans (List.Perm.swap x t ts)

theorem eraseIdx_insertAt (l : List Tab) (j : Nat) (x : Tab) (hj : j ≤ l.length) :
    (insertAt l j x).eraseIdx j = l := by
  induction l generalizing j with
  | nil =>
    cases j with
    | zero => rfl
    | succ j => simp at hj
  | cons t ts ih =>
    cases j with
    | zero => rfl
    | succ j =>
      simp only [insertAt, List.eraseIdx_cons_succ, List.cons.injEq, true_and]
      exact ih j (by simp at hj; omega)

theorem insertAt_getD (l : List Tab) (j : Nat) (x : Tab) (hj : j ≤ l.length) :
    (insertAt l j x).getD j default = x := by
  induction l generalizing j with
  | nil =>
    cases j with
    | zero => rfl
    | succ j => simp at hj
  | cons t ts ih =>
    cases j with
    | zero => rfl
    | succ j =>
      simp only [insertAt, List.getD_cons_succ]
      exact ih j (by simp at hj; omega)

theorem map_eraseIdx {α : Type} (f : Tab → α) (l : List Tab) (i : Nat) :
    (l.eraseIdx i).map f = (l.map f).eraseIdx i := by
  induction l generalizing i with
  | nil => rfl
  | cons t ts ih =>
    cases i with
    | zero => rfl
    | succ i => simp [List.eraseIdx_cons_succ, ih]

theorem getD_cons_eraseIdx_perm (l : List Tab) (i : Nat) (hi : i < l.length) :
    List.Perm (l.getD i default :: l.eraseIdx i) l := by
  induction l generalizing i with
  | nil => simp at hi
  | cons t ts ih =>
    cases i with
    | zero => simp
    | succ i =>
      simp only [List.getD_cons_succ, List.eraseIdx_cons_succ]
      exact (List.Perm.swap t (ts.getD i default) (ts.eraseIdx i)).trans
        ((ih i (by simp at hi; omega)).cons t)

theorem countActive_eraseIdx (l : List Tab) (i : Nat) (hi : i < l.length) :
    countActive (l.eraseIdx i) + (if (l.getD i default).isActive then 1 else 0) =
      countActive l := by
  have h := (getD_cons_eraseIdx_perm l i hi).countP_eq (fun t => t.isActive)
  simp only [List.countP_cons] at h
  simpa [countActive] using h

theorem findTabIdx_eq_none (l : List Tab) (id : Nat) :
    findTabIdx l id = none ↔ ∀ t ∈ l, t.id ≠ id := by
  induction l with
  | nil => simp [findTabIdx]
  | cons t ts ih =>
    by_cases h : t.id = id <;> simp [findTabIdx, h, ih]

theorem findTabIdx_some (l : List Tab) (id i : Nat)
    (h : findTabIdx l id = some i) :
    i < l.length ∧ (l.getD i default).id = id := by
  induction l generalizing i with
  | nil => simp [findTabIdx] at h
  | cons t ts ih =>
    by_cases ht : t.id = id
    · simp only [findTabIdx, if_pos ht, Option.some.injEq] at h
      subst h
      simpa using ht
    · simp only [findTabIdx, if_neg ht, Option.map_eq_some'] at h
      obtain ⟨j, hj, hji⟩ := h
      subst hji
      have h2 := ih j hj
      refine ⟨by simp; omega, ?_⟩
      simpa [List.getD_cons_succ] using h2.2

theorem findTabIdx_eraseIdx_map_id (l : List Tab) (id i : Nat)
    (h : findTabIdx l id = some i) :
    (l.map Tab.id).eraseIdx i = (l.map Tab.id).erase id := by
  induction l generalizing i with
  | nil => simp [findTabIdx] at h
  | cons t ts ih =>
    by_cases ht : t.id = id
    · simp only [findTabIdx, if_pos ht, Option.some.injEq] at h
      subst h
      simp [ht]
    · simp only [findTabIdx, if_neg ht, Option.map_eq_some'] at h
      obtain ⟨j, hj, hji⟩ := h
      subst hji
      have hne : ¬(t.id == id) := by simpa using ht
      simp only [List.map_cons, List.eraseIdx_cons_succ, List.erase_cons_tail hne]
      rw [ih j hj]

theorem removeTabAt_map_id (l : List Tab) (i : Nat) :
    (removeTabAt l i).map Tab.id = (l.map Tab.id).eraseIdx i := by
  unfold removeTabAt
  split
  · rw [activateIdx_map_id, renumber_map_id, map_eraseIdx]
  · rw [renumber_map_id, map_eraseIdx]

theorem removeTabAt_map_order (l : List Tab) (i : Nat) :
    (removeTabAt l i).map Tab.order = List.range ((removeTabAt l i).length) := by
  unfold removeTabAt
  split
  · rw [activateIdx_map_order, activateIdx_length, renumber_length, renumber_map_order]
  · rw [renumber_length, renumber_map_order]

theorem removeTabAt_length (l : List Tab) (i : Nat) :
    (removeTabAt l i).length = (l.eraseIdx i).length := by
  unfold removeTabAt
  split
  · rw [activateIdx_length, renumber_length]
  · rw [renumber_length]

theorem closeTab_force_snd (s : TabStore) (id : Nat) :
    (closeTab s id true).2 = CloseResult.closed := by
  unfold closeTab
  cases h : findTabIdx s.tabs id with
  | none => rfl
  | some i => simp

theorem closeTab_force_map_id (s : TabStore) (id : Nat) :
    ((closeTab s id true).1).tabs.map Tab.id = (s.tabs.map Tab.id).erase id := by
  cases h : findTabIdx s.tabs id with
  | none =>
    have hmem : id ∉ s.tabs.map Tab.id := by
      simp only [List.mem_map, not_exists]
      rintro t ⟨ht, hid⟩
      exact (findTabIdx_eq_none _ _).1 h t ht hid
    simp [closeTab, h, List.erase_of_not_mem hmem]
  | some i =>
    simp only [closeTab, h, eq_self_iff_true, not_true, and_false, if_false]
    rw [removeTabAt_map_id, findTabIdx_eraseIdx_map_id _ _ _ h]

theorem closeTab_nextId (s : TabStore) (id : Nat) (force : Bool) :
    ((closeTab s id force).1).nextId = s.nextId := by
  cases h : findTabIdx s.tabs id with
  | none => simp [closeTab, h]
  | some i =>
    simp only [closeTab, h]
    split <;> rfl

/-! Invariant preservation. -/

theorem invariant_initial : Invariant initialStore := by decide

theorem invariant_createTab (s : TabStore) (sid : Option Nat) (pp : Option String)
    (h : Invariant s) : Invariant (createTab s sid pp).1 := by
  obtain ⟨hord, hnod, hid, hact⟩ := h
  have hcord : (Tab.order ∘ fun u : Tab => { u with isActive := false }) = Tab.order := rfl
  have hcid : (Tab.id ∘ fun u : Tab => { u with isActive := false }) = Tab.id := rfl
  refine ⟨?_, ?_, ?_, ?_⟩
  · show ((s.tabs.map fun u : Tab => { u with isActive := false }) ++ [_]).map Tab.order =
      List.range ((s.tabs.map fun u : Tab => { u with isActive := false }) ++ [_]).length
    simp only [List.map_append, List.map_map, hcord, List.map_cons, List.map_nil,
      List.length_append, List.length_map, List.length_cons, List.length_nil]
    rw [hord]
    simp [List.range_succ]
  · show (((s.tabs.map fun u : Tab => { u with isActive := false }) ++ [_]).map Tab.id).Nodup
    simp only [List.map_append, List.map_map, hcid, List.map_cons, List.map_nil]
    rw [List.nodup_append]
    refine ⟨hnod, by simp, ?_⟩
    intro a ha hmem
    simp only [List.mem_singleton] at hmem
    subst hmem
    obtain ⟨u, hu, huid⟩ := List.mem_map.1 ha
    exact absurd (huid ▸ hid u hu) (by omega)
  · intro t ht
    show t.id < s.nextId + 1
    simp only [createTab, List.mem_append, List.mem_map, List.mem_singleton] at ht
    rcases ht with ⟨u, hu, rfl⟩ | rfl
    · simpa using Nat.lt_succ_of_lt (hid u hu)
    · simp
  · show countActive ((s.tabs.map fun u : Tab => { u with isActive := false }) ++ [_]) =
      if ((createTab s sid pp).1.tabs).isEmpty then 0 else 1
    have h0 : List.countP (fun t => t.isActive)
        (s.tabs.map fun u : Tab => { u with isActive := false }) = 0 := by
      rw [List.countP_eq_zero]
      intro a ha
      obtain ⟨u, _, rfl⟩ := List.mem_map.1 ha
      simp
    have hne2 : ((createTab s sid pp).1.tabs).isEmpty = false := by
      simp [createTab]
    rw [hne2]
    simp [countActive, List.countP_append, h0, List.countP_cons]

theorem invariant_removeTab (s : TabStore) (i : Nat) (hi : i < s.tabs.length)
    (h : Invariant s) : Invariant { s with tabs := removeTabAt s.tabs i } := by
  obtain ⟨hord, hnod, hid, hact⟩ := h
  have hne : s.tabs ≠ [] := by
    intro hnil
    rw [hnil] at hi
    simp at hi
  have hc1 : countActive s.tabs = 1 := by
    rw [hact]
    simp [hne]
  refine ⟨?_, ?_, ?_, ?_⟩
  · exact removeTabAt_map_order s.tabs i
  · show ((removeTabAt s.tabs i).map Tab.id).Nodup
    rw [removeTabAt_map_id]
    exact (List.eraseIdx_sublist _ i).nodup hnod
  · intro t ht
    show t.id < s.nextId
    have h1 : t.id ∈ (removeTabAt s.tabs i).map Tab.id := List.mem_map_of_mem _ ht
    rw [removeTabAt_map_id] at h1
    have h2 : t.id ∈ s.tabs.map Tab.id := (List.eraseIdx_sublist _ i).subset h1
    obtain ⟨u, hu, huid⟩ := List.mem_map.1 h2
    exact huid ▸ hid u hu
  · show countActive (removeTabAt s.tabs i) = if (removeTabAt s.tabs i).isEmpty then 0 else 1
    by_cases ha : (s.tabs.getD i default).isActive = true
    · have he : countActive (s.tabs.eraseIdx i) = 0 := by
        have hcnt := countActive_eraseIdx s.tabs i hi
        rw [ha] at hcnt
        simp at hcnt
        omega
      have hcr : countActive (renumber (s.tabs.eraseIdx i)) = 0 := by
        rw [renumber_countActive]
        exact he
      by_cases hnil : renumber (s.tabs.eraseIdx i) = []
      · unfold removeTabAt
        rw [if_neg (by simp [hnil])]
        rw [hnil]
        simp [countActive]
      · unfold removeTabAt
        rw [if_pos ⟨ha, hnil⟩]
        have hlpos : 0 < (renumber (s.tabs.eraseIdx i)).length := List.length_pos.2 hnil
        have hj : min i ((renumber (s.tabs.eraseIdx i)).length - 1) <
            (renumber (s.tabs.eraseIdx i)).length :=
          Nat.lt_of_le_of_lt (Nat.min_le_right _ _) (by omega)
        rw [countActive_activateIdx _ _ hcr hj]
        have hemp : (activateIdx (renumber (s.tabs.eraseIdx i))
            (min i ((renumber (s.tabs.eraseIdx i)).length - 1))).isEmpty = false := by
          rw [List.isEmpty_eq_false, ← List.length_pos, activateIdx_length]
          exact hlpos
        rw [hemp]
        simp
    · have he : countActive (s.tabs.eraseIdx i) = 1 := by
        have hcnt := countActive_eraseIdx s.tabs i hi
        rw [if_neg ha] at hcnt
        omega
      unfold removeTabAt
      rw [if_neg fun hcon => ha hcon.1]
      rw [renumber_countActive, he]
      have hemp : (renumber (s.tabs.eraseIdx i)).isEmpty = false := by
        rw [List.isEmpty_eq_false]
        intro hnil
        rw [← renumber_countActive, hnil] at he
        simp [countActive] at he
      rw [hemp]
      simp

theorem invariant_closeTab (s : TabStore) (id : Nat) (force : Bool)
    (h : Invariant s) : Invariant (closeTab s id force).1 := by
  cases hf : findTabIdx s.tabs id with
  | none => simpa [closeTab, hf] using h
  | some i =>
    have hi : i < s.tabs.length := (findTabIdx_some _ _ _ hf).1
    have hsplit : (closeTab s id force).1 = s ∨
        (closeTab s id force).1 = { s with tabs := removeTabAt s.tabs i } := by
      unfold closeTab
      rw [hf]
      dsimp only
      split
      · exact Or.inl rfl
      · exact Or.inr rfl
    rcases hsplit with hs | hs <;> rw [hs]
    · exact h
    · exact invariant_removeTab s i hi h

theorem invariant_reorderTabs (s : TabStore) (i j : Nat)
    (h : Invariant s) : Invariant (reorderTabs s i j) := by
  unfold reorderTabs
  split
  · exact h
  · rename_i hcond
    push_neg at hcond
    obtain ⟨hij, hi, hj⟩ := hcond
    obtain ⟨hord, hnod, hid, hact⟩ := h
    have hperm : List.Perm (insertAt (s.tabs.eraseIdx i) j (s.tabs.getD i default)) s.tabs :=
      (insertAt_perm _ _ _).trans (getD_cons_eraseIdx_perm s.tabs i hi)
    have hpermid : List.Perm
        ((insertAt (s.tabs.eraseIdx i) j (s.tabs.getD i default)).map Tab.id)
        (s.tabs.map Tab.id) := hperm.map Tab.id
    refine ⟨?_, ?_, ?_, ?_⟩
    · show (renumber _).map Tab.order = List.range (renumber _).length
      rw [renumber_map_order, renumber_length]
    · show ((renumber _).map Tab.id).Nodup
      rw [renumber_map_id]
      exact hpermid.symm.nodup hnod
    · intro t ht
      show t.id < s.nextId
      have h1 : t.id ∈ (renumber (insertAt (s.tabs.eraseIdx i) j
          (s.tabs.getD i default))).map Tab.id := List.mem_map_of_mem _ ht
      rw [renumber_map_id] at h1
      have h2 : t.id ∈ s.tabs.map Tab.id := hpermid.subset h1
      obtain ⟨u, hu, huid⟩ := List.mem_map.1 h2
      exact huid ▸ hid u hu
    · show countActive (renumber _) = if (renumber _).isEmpty then 0 else 1
      rw [renumber_countActive]
      have hcnt : countActive (insertAt (s.tabs.eraseIdx i) j (s.tabs.getD i default)) =
          countActive s.tabs := hperm.countP_eq _
      rw [hcnt, hact]
      have hlen : (renumber (insertAt (s.tabs.eraseIdx i) j
          (s.tabs.getD i default))).length = s.tabs.length := by
        rw [renumber_length]
        exact hperm.length_eq
      have hboth : (renumber (insertAt (s.tabs.eraseIdx i) j
          (s.tabs.getD i default))).isEmpty = s.tabs.isEmpty := by
        rcases hemp : s.tabs.isEmpty with _ | _
        · rw [List.isEmpty_eq_false] at hemp ⊢
          rw [← List.length_pos] at hemp ⊢
          omega
        · rw [List.isEmpty_iff] at hemp ⊢
          rw [← List.length_eq_zero] at hemp ⊢
          omega
      rw [hboth]

theorem invariant_applyOp (s : TabStore) (op : TabOp)
    (h : Invariant s) : Invariant (applyOp s op) := by
  cases op with
  | create sid pp => exact invariant_createTab s sid pp h
  | close id f => exact invariant_closeTab s id f h
  | reorder i j => exact invariant_reorderTabs s i j h

theorem invariant_applyOps (s : TabStore) (ops : List TabOp)
    (h : Invariant s) : Invariant (applyOps s ops) := by
  induction ops generalizing s with
  | nil => exact h
  | cons op rest ih => exact ih (applyOp s op) (invariant_applyOp s op h)

/-! Lemmas supporting the per-claim theorems. -/

theorem map_id_getD (l : List Tab) (j : Nat) (hj : j < l.length) :
    (l.map Tab.id).getD j 0 = (l.getD j default).id := by
  induction l generalizing j with
  | nil => simp at hj
  | cons t ts ih =>
    cases j with
    | zero => rfl
    | succ j =>
      simp only [List.map_cons, List.getD_cons_succ]
      exact ih j (by simp at hj; omega)

theorem not_mem_foldl_erase (l L : List Nat) (a : Nat)
    (ha : a ∉ l) : a ∉ List.foldl List.erase l L := by
  induction L generalizing l with
  | nil => exact ha
  | cons b L ih =>
    exact ih _ (fun hmem => ha (List.mem_of_mem_erase hmem))

theorem target_not_mem_foldl_erase (l L : List Nat) (a : Nat)
    (hnd : l.Nodup) (ha : a ∈ L) : a ∉ List.foldl List.erase l L := by
  induction L generalizing l with
  | nil => simp at ha
  | cons b L ih =>
    simp only [List.foldl_cons]
    by_cases hab : a = b
    · subst hab
      exact not_mem_foldl_erase _ _ _ hnd.not_mem_erase
    · rcases List.mem_cons.1 ha with rfl | haL
      · exact absurd rfl hab
      · exact ih _ (hnd.erase b) haL

theorem foldl_erase_sublist (l L : List Nat) :
    List.Sublist (List.foldl List.erase l L) l := by
  induction L generalizing l with
  | nil => exact List.Sublist.refl l
  | cons b L ih => exact (ih (l.erase b)).trans (List.erase_sublist b l)

theorem foldl_erase_self (l : List Nat) (hnd : l.Nodup) :
    List.foldl List.erase l l = [] := by
  rw [List.eq_nil_iff_forall_not_mem]
  intro a hmem
  have hal : a ∈ l := (foldl_erase_sublist l l).subset hmem
  exact target_not_mem_foldl_erase l l a hnd hal hmem

theorem closeTabsForce_map_id (s : TabStore) (L : List Nat) :
    ((closeTabsForce s L).1).tabs.map Tab.id =
      List.foldl List.erase (s.tabs.map Tab.id) L := by
  induction L generalizing s with
  | nil => rfl
  | cons a L ih =>
    simp only [closeTabsForce, List.foldl_cons]
    rw [ih, closeTab_force_map_id]

theorem closeTabsForce_all_closed (s : TabStore) (L : List Nat) :
    ∀ r ∈ (closeTabsForce s L).2, r = CloseResult.closed := by
  induction L generalizing s with
  | nil => simp [closeTabsForce]
  | cons a L ih =>
    intro r hr
    simp only [closeTabsForce, List.mem_cons] at hr
    rcases hr with rfl | hr
    · exact closeTab_force_snd s a
    · exact ih _ r hr

/-! Claim theorems. -/

/-- C1: for every sequence of `createTab`, `closeTab` and `reorderTabs`
operations applied to the (initially empty) Tab Store, the resulting `order`
values are a contiguous permutation of `[0, n)` for `n` tabs — no gaps, no
duplicates — and the store has exactly one tab with `isActive = true`
whenever it is non-empty, and at most one in every case. -/
theorem tabOps_preserve_order_and_active (ops : List TabOp) :
    List.Perm ((applyOps initialStore ops).tabs.map Tab.order)
      (List.range (applyOps initialStore ops).tabs.length) ∧
    ((applyOps initialStore ops).tabs ≠ [] →
      countActive (applyOps initialStore ops).tabs = 1) ∧
    countActive (applyOps initialStore ops).tabs ≤ 1 := by
  obtain ⟨hord, hnod, hid, hact⟩ :=
    invariant_applyOps initialStore ops invariant_initial
  refine ⟨hord ▸ List.Perm.refl _, ?_, ?_⟩
  · intro hne
    rw [hact]
    simp [hne]
  · rw [hact]
    split <;> omega

/-- Witness for the invariant theorem at a concrete operation sequence. -/
theorem tabOps_preserve_order_and_active_witness :
    List.Perm ((applyOps initialStore [TabOp.create none (some "/p"),
      TabOp.create (some 4) none, TabOp.create none none,
      TabOp.reorder 0 2, TabOp.close 1 true]).tabs.map Tab.order)
      (List.range (applyOps initialStore [TabOp.create none (some "/p"),
        TabOp.create (some 4) none, TabOp.create none none,
        TabOp.reorder 0 2, TabOp.close 1 true]).tabs.length) ∧
    ((applyOps initialStore [TabOp.create none (some "/p"),
      TabOp.create (some 4) none, TabOp.create none none,
      TabOp.reorder 0 2, TabOp.close 1 true]).tabs ≠ [] →
      countActive (applyOps initialStore [TabOp.create none (some "/p"),
        TabOp.create (some 4) none, TabOp.create none none,
        TabOp.reorder 0 2, TabOp.close 1 true]).tabs = 1) ∧
    countActive (applyOps initialStore [TabOp.create none (some "/p"),
      TabOp.create (some 4) none, TabOp.create none none,
      TabOp.reorder 0 2, TabOp.close 1 true]).tabs ≤ 1 :=
  tabOps_preserve_order_and_active [TabOp.create none (some "/p"),
    TabOp.create (some 4) none, TabOp.create none none,
    TabOp.reorder 0 2, TabOp.close 1 true]

/-- C4: for distinct in-range indices, `reorderTabs` removes the element at
`fromIdx` and reinserts it at `toIdx`: the id collection is preserved up to
permutation (nothing dropped or duplicated), the moved id lands at `toIdx`,
all other elements keep their relative order (removing the moved position
recovers the original minus the moved element), and the length is unchanged;
concretely on the sample store [A, B, C], reorder 0 2 yields [B, C, A] and
reorder 2 0 yields [C, A, B]. -/
theorem reorderTabs_moves_element (s : TabStore) (fromIdx toIdx : Nat)
    (hne : fromIdx ≠ toIdx) (hf : fromIdx < s.tabs.length)
    (ht : toIdx < s.tabs.length) :
    List.Perm ((reorderTabs s fromIdx toIdx).tabs.map Tab.id) (s.tabs.map Tab.id) ∧
    ((reorderTabs s fromIdx toIdx).tabs.map Tab.id).getD toIdx 0 =
      (s.tabs.map Tab.id).getD fromIdx 0 ∧
    ((reorderTabs s fromIdx toIdx).tabs.map Tab.id).eraseIdx toIdx =
      (s.tabs.map Tab.id).eraseIdx fromIdx ∧
    (reorderTabs s fromIdx toIdx).tabs.length = s.tabs.length ∧
    (reorderTabs sampleStore 0 2).tabs.map Tab.id = [1, 2, 0] ∧
    (reorderTabs sampleStore 2 0).tabs.map Tab.id = [2, 0, 1] := by
  have hcond : ¬(fromIdx = toIdx ∨ s.tabs.length ≤ fromIdx ∨
      s.tabs.length ≤ toIdx) := by omega
  have hred : (reorderTabs s fromIdx toIdx).tabs =
      renumber (insertAt (s.tabs.eraseIdx fromIdx) toIdx
        (s.tabs.getD fromIdx default)) := by
    unfold reorderTabs
    rw [if_neg hcond]
  have hm : toIdx ≤ (s.tabs.eraseIdx fromIdx).length := by
    rw [List.length_eraseIdx_of_lt hf]
    omega
  have hperm : List.Perm (insertAt (s.tabs.eraseIdx fromIdx) toIdx
      (s.tabs.getD fromIdx default)) s.tabs :=
    (insertAt_perm _ _ _).trans (getD_cons_eraseIdx_perm s.tabs fromIdx hf)
  refine ⟨?_, ?_, ?_, ?_, by decide, by decide⟩
  · rw [hred, renumber_map_id]
    exact hperm.map Tab.id
  · rw [hred, renumber_map_id,
      map_id_getD _ _ (by rw [insertAt_length, List.length_eraseIdx_of_lt hf]; omega),
      map_id_getD _ _ hf, insertAt_getD _ _ _ hm]
  · rw [hred, renumber_map_id, ← map_eraseIdx, eraseIdx_insertAt _ _ _ hm,
      map_eraseIdx]
  · rw [hred, renumber_length, insertAt_length, List.length_eraseIdx_of_lt hf]
    omega

/-- Witness for the reorder theorem at the sample store, indices 0 and 2. -/
theorem reorderTabs_moves_element_witness :
    (0 : Nat) ≠ 2 ∧ 0 < sampleStore.tabs.length ∧ 2 < sampleStore.tabs.length ∧
    (List.Perm ((reorderTabs sampleStore 0 2).tabs.map Tab.id)
      (sampleStore.tabs.map Tab.id) ∧
    ((reorderTabs sampleStore 0 2).tabs.map Tab.id).getD 2 0 =
      (sampleStore.tabs.map Tab.id).getD 0 0 ∧
    ((reorderTabs sampleStore 0 2).tabs.map Tab.id).eraseIdx 2 =
      (sampleStore.tabs.map Tab.id).eraseIdx 0 ∧
    (reorderTabs sampleStore 0 2).tabs.length = sampleStore.tabs.length ∧
    (reorderTabs sampleStore 0 2).tabs.map Tab.id = [1, 2, 0] ∧
    (reorderTabs sampleStore 2 0).tabs.map Tab.id = [2, 0, 1]) :=
  ⟨by decide, by decide, by decide,
   reorderTabs_moves_element sampleStore 0 2 (by decide) (by decide) (by decide)⟩

/-- C5: `reorderTabs` with equal indices is a no-op, out-of-range indices
are rejected without mutating state, and the drop handler never invokes a
reorder when nothing is dragged, the dragged tab is not found, or the source
index equals the target index. -/
theorem reorderTabs_noop_and_guards (s : TabStore) (i j : Nat) (d : Option Nat)
    (tabs : List Tab) (tgt : Nat)
    (hout : s.tabs.length ≤ i ∨ s.tabs.length ≤ j) :
    reorderTabs s i i = s ∧
    reorderTabs s i j = s ∧
    handleTabDrop none tabs tgt = DropAction.idle ∧
    (∀ dId, findTabIdx tabs dId = none →
      handleTabDrop (some dId) tabs tgt = DropAction.idle) ∧
    (∀ dId, findTabIdx tabs dId = some tgt →
      handleTabDrop (some dId) tabs tgt = DropAction.idle) ∧
    (∀ f t, handleTabDrop d tabs tgt = DropAction.reorder f t → f ≠ t) := by
  refine ⟨?_, ?_, rfl, ?_, ?_, ?_⟩
  · simp [reorderTabs]
  · unfold reorderTabs
    rw [if_pos (Or.inr hout)]
  · intro dId hfind
    simp [handleTabDrop, hfind]
  · intro dId hfind
    simp [handleTabDrop, hfind]
  · intro f t hcall
    cases d with
    | none => simp [handleTabDrop] at hcall
    | some dId =>
      cases hfind : findTabIdx tabs dId with
      | none => simp [handleTabDrop, hfind] at hcall
      | some fIdx =>
        by_cases heq : fIdx = tgt
        · simp [handleTabDrop, hfind, heq] at hcall
        · simp [handleTabDrop, hfind, heq] at hcall
          omega

/-- Witness for the no-op and guard theorem at the sample store. -/
theorem reorderTabs_noop_and_guards_witness :
    (sampleStore.tabs.length ≤ 5 ∨ sampleStore.tabs.length ≤ 1) ∧
    (reorderTabs sampleStore 5 5 = sampleStore ∧
    reorderTabs sampleStore 5 1 = sampleStore ∧
    handleTabDrop none sampleStore.tabs 0 = DropAction.idle ∧
    (∀ dId, findTabIdx sampleStore.tabs dId = none →
      handleTabDrop (some dId) sampleStore.tabs 0 = DropAction.idle) ∧
    (∀ dId, findTabIdx sampleStore.tabs dId = some 0 →
      handleTabDrop (some dId) sampleStore.tabs 0 = DropAction.idle) ∧
    (∀ f t, handleTabDrop (some 1) sampleStore.tabs 0 = DropAction.reorder f t →
      f ≠ t)) :=
  ⟨by decide,
   reorderTabs_noop_and_guards sampleStore 5 1 (some 1) sampleStore.tabs 0 (by decide)⟩

/-- C2: `closeTab` on a tab with unsaved changes and no force flag returns a
pending confirmation referencing that tab id and mutates nothing; the UI
handler records the id (opening the confirmation dialog) exactly when such a
result is returned; a subsequent forced close removes the tab
unconditionally and re-derives the active pointer. -/
theorem closeTab_unsaved_two_phase (s : TabStore) (id i : Nat)
    (pending : Option Nat) (hinv : Invariant s)
    (hf : findTabIdx s.tabs id = some i)
    (hu : (s.tabs.getD i default).hasUnsavedChanges = true) :
    closeTab s id false = (s, CloseResult.needsConfirmation id) ∧
    handleCloseTab s pending id false = (s, some id) ∧
    (closeTab s id true).1.tabs.map Tab.id = (s.tabs.map Tab.id).erase id ∧
    id ∉ (closeTab s id true).1.tabs.map Tab.id ∧
    countActive (closeTab s id true).1.tabs =
      (if (closeTab s id true).1.tabs.isEmpty then 0 else 1) ∧
    (∀ force : Bool, ((handleCloseTab s none id force).2).isSome = true ↔
      ∃ tid, (closeTab s id force).2 = CloseResult.needsConfirmation tid) := by
  have hstep : closeTab s id false = (s, CloseResult.needsConfirmation id) := by
    have hu2 : (s.tabs[i]?.getD default).hasUnsavedChanges = true := by
      rw [← List.getD_eq_getElem?_getD]
      exact hu
    simp [closeTab, hf, hu2]
  refine ⟨hstep, ?_, closeTab_force_map_id s id, ?_, ?_, ?_⟩
  · simp [handleCloseTab, hstep]
  · rw [closeTab_force_map_id]
    exact hinv.2.1.not_mem_erase
  · exact (invariant_closeTab s id true hinv).2.2.2
  · intro force
    rcases hres : closeTab s id force with ⟨s1, r⟩
    cases r with
    | closed => simp [handleCloseTab, hres]
    | needsConfirmation tid => simp [handleCloseTab, hres]

/-- Witness for the two-phase closure theorem at the dirty one-tab store. -/
theorem closeTab_unsaved_two_phase_witness :
    Invariant dirtyStore ∧ findTabIdx dirtyStore.tabs 7 = some 0 ∧
    (dirtyStore.tabs.getD 0 default).hasUnsavedChanges = true ∧
    (closeTab dirtyStore 7 false = (dirtyStore, CloseResult.needsConfirmation 7) ∧
    handleCloseTab dirtyStore none 7 false = (dirtyStore, some 7) ∧
    (closeTab dirtyStore 7 true).1.tabs.map Tab.id =
      (dirtyStore.tabs.map Tab.id).erase 7 ∧
    7 ∉ (closeTab dirtyStore 7 true).1.tabs.map Tab.id ∧
    countActive (closeTab dirtyStore 7 true).1.tabs =
      (if (closeTab dirtyStore 7 true).1.tabs.isEmpty then 0 else 1) ∧
    (∀ force : Bool, ((handleCloseTab dirtyStore none 7 force).2).isSome = true ↔
      ∃ tid, (closeTab dirtyStore 7 force).2 = CloseResult.needsConfirmation tid)) :=
  ⟨by decide, by decide, by decide,
   closeTab_unsaved_two_phase dirtyStore 7 0 none (by decide) (by decide) (by decide)⟩

/-- C3: when `closeTab` removes the currently active tab, the survivor now
occupying the removed tab's former order position (or the nearest lower
position when it was the last tab) becomes the unique active tab; the store
is never left with zero active tabs while tabs remain, and becomes empty
exactly when the closed tab was the only one; concretely, closing active A
out of [A, B, C] activates B. -/
theorem closeTab_active_succession (s : TabStore) (id i : Nat)
    (hinv : Invariant s)
    (hf : findTabIdx s.tabs id = some i)
    (ha : (s.tabs.getD i default).isActive = true)
    (hu : (s.tabs.getD i default).hasUnsavedChanges = false) :
    (closeTab s id false).1.tabs.map Tab.id = (s.tabs.map Tab.id).eraseIdx i ∧
    ((closeTab s id false).1.tabs = [] ↔ s.tabs.length = 1) ∧
    ((closeTab s id false).1.tabs ≠ [] →
      countActive (closeTab s id false).1.tabs = 1 ∧
      ∃ t ∈ (closeTab s id false).1.tabs, t.isActive = true ∧
        t.id = ((s.tabs.map Tab.id).eraseIdx i).getD
          (min i ((closeTab s id false).1.tabs.length - 1)) 0) ∧
    (closeTab sampleStore 0 false).1.tabs.map (fun t => (t.id, t.isActive)) =
      [(1, true), (2, false)] := by
  have hi : i < s.tabs.length := (findTabIdx_some _ _ _ hf).1
  have hred : (closeTab s id false).1 = { s with tabs := removeTabAt s.tabs i } := by
    have hu2 : (s.tabs[i]?.getD default).hasUnsavedChanges = false := by
      rw [← List.getD_eq_getElem?_getD]
      exact hu
    simp [closeTab, hf, hu2]
  have hlen : (removeTabAt s.tabs i).length = s.tabs.length - 1 := by
    rw [removeTabAt_length, List.length_eraseIdx_of_lt hi]
  refine ⟨?_, ?_, ?_, by decide⟩
  · rw [hred]
    exact removeTabAt_map_id s.tabs i
  · rw [hred]
    show removeTabAt s.tabs i = [] ↔ s.tabs.length = 1
    rw [← List.length_eq_zero, hlen]
    omega
  · intro hne
    have hinv2 := invariant_closeTab s id false hinv
    have hc1 : countActive (closeTab s id false).1.tabs = 1 := by
      rw [hinv2.2.2.2]
      simp [hne]
    refine ⟨hc1, ?_⟩
    have hrne : renumber (s.tabs.eraseIdx i) ≠ [] := by
      intro hr0
      apply hne
      rw [hred]
      show removeTabAt s.tabs i = []
      unfold removeTabAt
      rw [if_neg (fun hc => hc.2 hr0), hr0]
    have hact2 : removeTabAt s.tabs i = activateIdx (renumber (s.tabs.eraseIdx i))
        (min i ((renumber (s.tabs.eraseIdx i)).length - 1)) := by
      unfold removeTabAt
      rw [if_pos ⟨ha, hrne⟩]
    have hlen2 : (closeTab s id false).1.tabs.length =
        (renumber (s.tabs.eraseIdx i)).length := by
      rw [hred]
      show (removeTabAt s.tabs i).length = _
      rw [hact2, activateIdx_length]
    have hrpos : 0 < (renumber (s.tabs.eraseIdx i)).length := List.length_pos.2 hrne
    have hjlt : min i ((renumber (s.tabs.eraseIdx i)).length - 1) <
        (renumber (s.tabs.eraseIdx i)).length :=
      Nat.lt_of_le_of_lt (Nat.min_le_right _ _) (by omega)
    have hjst : min i ((closeTab s id false).1.tabs.length - 1) =
        min i ((renumber (s.tabs.eraseIdx i)).length - 1) := by
      rw [hlen2]
    have hjlt2 : min i ((closeTab s id false).1.tabs.length - 1) <
        (closeTab s id false).1.tabs.length := by
      rw [hjst, hlen2]
      exact hjlt
    refine ⟨(closeTab s id false).1.tabs.getD
      (min i ((closeTab s id false).1.tabs.length - 1)) default, ?_, ?_, ?_⟩
    · rw [List.getD_eq_getElem _ _ hjlt2]
      exact List.getElem_mem _
    · rw [hjst, hred]
      show ((removeTabAt s.tabs i).getD _ default).isActive = true
      rw [hact2, activateIdx_getD _ _ hjlt]
    · rw [hjst, hred]
      show ((removeTabAt s.tabs i).getD _ default).id =
        ((s.tabs.map Tab.id).eraseIdx i).getD _ 0
      rw [hact2, activateIdx_getD _ _ hjlt]
      show ((renumber (s.tabs.eraseIdx i)).getD _ default).id = _
      rw [← map_id_getD _ _ hjlt, renumber_map_id, map_eraseIdx]

/-- Witness for the succession theorem: closing A in the sample store. -/
theorem closeTab_active_succession_witness :
    Invariant sampleStore ∧ findTabIdx sampleStore.tabs 0 = some 0 ∧
    (sampleStore.tabs.getD 0 default).isActive = true ∧
    (sampleStore.tabs.getD 0 default).hasUnsavedChanges = false ∧
    ((closeTab sampleStore 0 false).1.tabs.map Tab.id =
      (sampleStore.tabs.map Tab.id).eraseIdx 0 ∧
    ((closeTab sampleStore 0 false).1.tabs = [] ↔ sampleStore.tabs.length = 1) ∧
    ((closeTab sampleStore 0 false).1.tabs ≠ [] →
      countActive (closeTab sampleStore 0 false).1.tabs = 1 ∧
      ∃ t ∈ (closeTab sampleStore 0 false).1.tabs, t.isActive = true ∧
        t.id = ((sampleStore.tabs.map Tab.id).eraseIdx 0).getD
          (min 0 ((closeTab sampleStore 0 false).1.tabs.length - 1)) 0) ∧
    (closeTab sampleStore 0 false).1.tabs.map (fun t => (t.id, t.isActive)) =
      [(1, true), (2, false)]) :=
  ⟨by decide, by decide, by decide, by decide,
   closeTab_active_succession sampleStore 0 0 (by decide) (by decide)
     (by decide) (by decide)⟩

/-- C6: every Tab Entity keeps a persistently mounted view regardless of
being active; switching tabs changes only the visibility flags (the mounted
views and their identities are unchanged); and a background (inactive) tab
receiving a streaming event has `updateTabStreamingStatus` applied to its
`state` and `hasUnsavedChanges` without becoming active first. -/
theorem renderSurface_persistent_views (s : TabStore) (id tid : Nat)
    (str : Bool) (sid : Option Nat) (u : Tab)
    (hmem : u ∈ s.tabs) (huid : u.id = tid) (hin : u.isActive = false) :
    (∀ t ∈ s.tabs,
      ({ tabId := t.id, mounted := true, visible := t.isActive } : TabView) ∈
        renderSurface s.tabs) ∧
    (∀ v ∈ renderSurface s.tabs, v.mounted = true) ∧
    ((renderSurface (switchToTab s id).tabs).map TabView.tabId =
      (renderSurface s.tabs).map TabView.tabId) ∧
    ((updateTabStreamingStatus s tid str sid).tabs.map
        (fun t => (t.id, t.isActive)) =
      s.tabs.map (fun t => (t.id, t.isActive))) ∧
    (∃ t ∈ (updateTabStreamingStatus s tid str sid).tabs,
      t.id = u.id ∧
      t.state = (if str then TabState.streaming else TabState.idle) ∧
      t.hasUnsavedChanges = str ∧
      t.isActive = false) := by
  refine ⟨?_, ?_, ?_, ?_, ?_⟩
  · intro t ht
    exact List.mem_map_of_mem _ ht
  · intro v hv
    obtain ⟨t, _, rfl⟩ := List.mem_map.1 hv
    rfl
  · unfold switchToTab
    cases hfind : findTabIdx s.tabs id with
    | none => rfl
    | some k =>
      simp only [renderSurface, List.map_map]
      rfl
  · show (s.tabs.map _).map _ = _
    rw [List.map_map]
    apply List.map_congr_left
    intro a _
    by_cases hat : a.id = tid <;> simp [hat]
  · refine ⟨(fun t : Tab => if t.id = tid then
      { t with
        state := if str then TabState.streaming else TabState.idle,
        sessionId := match sid with | some x => some x | none => t.sessionId,
        hasUnsavedChanges := str }
      else t) u, List.mem_map_of_mem _ hmem, ?_⟩
    dsimp only
    rw [if_pos huid]
    exact ⟨rfl, rfl, rfl, hin⟩

/-- Witness for the render-surface theorem: inactive B in the sample store
receives a streaming event. -/
theorem renderSurface_persistent_views_witness :
    sampleTabB ∈ sampleStore.tabs ∧ sampleTabB.id = 1 ∧
    sampleTabB.isActive = false ∧
    ((∀ t ∈ sampleStore.tabs,
      ({ tabId := t.id, mounted := true, visible := t.isActive } : TabView) ∈
        renderSurface sampleStore.tabs) ∧
    (∀ v ∈ renderSurface sampleStore.tabs, v.mounted = true) ∧
    ((renderSurface (switchToTab sampleStore 2).tabs).map TabView.tabId =
      (renderSurface sampleStore.tabs).map TabView.tabId) ∧
    ((updateTabStreamingStatus sampleStore 1 true (some 42)).tabs.map
        (fun t => (t.id, t.isActive)) =
      sampleStore.tabs.map (fun t => (t.id, t.isActive))) ∧
    (∃ t ∈ (updateTabStreamingStatus sampleStore 1 true (some 42)).tabs,
      t.id = sampleTabB.id ∧
      t.state = (if true then TabState.streaming else TabState.idle) ∧
      t.hasUnsavedChanges = true ∧
      t.isActive = false)) :=
  ⟨by decide, by decide, by decide,
   renderSurface_persistent_views sampleStore 2 1 true (some 42) sampleTabB
     (by decide) (by decide) (by decide)⟩

/-- C7: a failed detachment leaves the workbench completely unchanged (no
partial removal); a successful detachment removes exactly one tab from the
local order and returns the window label; and in neither case is the
Session Bindings' conversation data touched. -/
theorem detachTab_atomic (w : Workbench) (id i : Nat) (lbl : Option String)
    (hf : findTabIdx w.store.tabs id = some i) :
    detachTab w id none = (w, none) ∧
    (∀ l, ((detachTab w id (some l)).1).store.tabs.length + 1 =
      w.store.tabs.length) ∧
    (∀ l, ((detachTab w id (some l)).1).sessions = w.sessions ∧
      (detachTab w id (some l)).2 = some l) ∧
    ((detachTab w id lbl).1).sessions = w.sessions := by
  have hi : i < w.store.tabs.length := (findTabIdx_some _ _ _ hf).1
  refine ⟨?_, ?_, ?_, ?_⟩
  · simp [detachTab, hf]
  · intro l
    have hts : ((detachTab w id (some l)).1).store.tabs =
        removeTabAt w.store.tabs i := by
      simp [detachTab, hf]
    rw [hts, removeTabAt_length, List.length_eraseIdx_of_lt hi]
    omega
  · intro l
    constructor <;> simp [detachTab, hf]
  · cases lbl <;> simp [detachTab, hf]

/-- Witness for the detachment theorem at the sample workbench. -/
theorem detachTab_atomic_witness :
    findTabIdx sampleWorkbench.store.tabs 0 = some 0 ∧
    (detachTab sampleWorkbench 0 none = (sampleWorkbench, none) ∧
    (∀ l, ((detachTab sampleWorkbench 0 (some l)).1).store.tabs.length + 1 =
      sampleWorkbench.store.tabs.length) ∧
    (∀ l, ((detachTab sampleWorkbench 0 (some l)).1).sessions =
        sampleWorkbench.sessions ∧
      (detachTab sampleWorkbench 0 (some l)).2 = some l) ∧
    ((detachTab sampleWorkbench 0 none).1).sessions = sampleWorkbench.sessions) :=
  ⟨by decide, detachTab_atomic sampleWorkbench 0 0 none (by decide)⟩

/-- C8: the shared `isChecking` guard allows at most one status check in
flight: a call made while the flag is set returns immediately with no side
effects, and every performed check acquires the flag before probing and
releases it afterwards, on the success path and the error path alike. -/
theorem statusCheck_reentrancy_guard (st : StatusState) (now : Nat)
    (api : Except Unit ApiOutcome) (h : st.isChecking = false) :
    (∀ st2 : StatusState, st2.isChecking = true →
      ∀ now2 api2, checkClaudeStatus st2 now2 api2 = st2) ∧
    checkClaudeStatus st now api =
      releaseGuard (performCheck (acquireGuard st) now api) ∧
    (acquireGuard st).isChecking = true ∧
    (∀ st3 now3 api3, (performCheck st3 now3 api3).isChecking = st3.isChecking) ∧
    (checkClaudeStatus st now api).isChecking = false := by
  refine ⟨?_, ?_, rfl, ?_, ?_⟩
  · intro st2 h2 now2 api2
    simp [checkClaudeStatus, h2]
  · simp [checkClaudeStatus, h]
  · intro st3 now3 api3
    cases api3 with
    | ok r => rfl
    | error e => rfl
  · simp [checkClaudeStatus, h, releaseGuard]

/-- Witness for the guard theorem at the sample indicator state. -/
theorem statusCheck_reentrancy_guard_witness :
    sampleStatusState.isChecking = false ∧
    ((∀ st2 : StatusState, st2.isChecking = true →
      ∀ now2 api2, checkClaudeStatus st2 now2 api2 = st2) ∧
    checkClaudeStatus sampleStatusState 5 (Except.ok sampleApiOk) =
      releaseGuard (performCheck (acquireGuard sampleStatusState) 5
        (Except.ok sampleApiOk)) ∧
    (acquireGuard sampleStatusState).isChecking = true ∧
    (∀ st3 now3 api3, (performCheck st3 now3 api3).isChecking = st3.isChecking) ∧
    (checkClaudeStatus sampleStatusState 5
        (Except.ok sampleApiOk)).isChecking = false) :=
  ⟨rfl, statusCheck_reentrancy_guard sampleStatusState 5
    (Except.ok sampleApiOk) rfl⟩

/-- C9: the persisted status cache is returned iff a well-formed entry
exists whose age `now - timestamp` is strictly below the fixed 24-hour
duration; missing, malformed or stale entries yield nothing; and a manual
refresh removes the cache entry before checking, so afterwards the cache is
either empty or a fresh entry stamped with the current time. -/
theorem statusCache_timeboxed (cell : Option CacheCell) (now : Nat)
    (si : StatusInfo) (st : StatusState) (api : Except Unit ApiOutcome) :
    (loadCachedStatus cell now = some si ↔
      ∃ ts, cell = some (CacheCell.valid si ts) ∧
        (now : Int) - (ts : Int) < (CACHE_DURATION : Int)) ∧
    loadCachedStatus none now = none ∧
    loadCachedStatus (some CacheCell.malformed) now = none ∧
    (∀ (ts : Nat) (si2 : StatusInfo),
      (CACHE_DURATION : Int) ≤ (now : Int) - (ts : Int) →
      loadCachedStatus (some (CacheCell.valid si2 ts)) now = none) ∧
    ((handleRefresh st now api).cache = none ∨
      ∃ si3, (handleRefresh st now api).cache =
        some (CacheCell.valid si3 now)) := by
  refine ⟨?_, rfl, rfl, ?_, ?_⟩
  · cases cell with
    | none => simp [loadCachedStatus]
    | some c =>
      cases c with
      | malformed => simp [loadCachedStatus]
      | valid si2 ts =>
        simp only [loadCachedStatus]
        split
        · rename_i hlt
          simp only [Option.some.injEq, CacheCell.valid.injEq]
          constructor
          · rintro rfl
            exact ⟨ts, ⟨rfl, rfl⟩, hlt⟩
          · rintro ⟨ts2, ⟨rfl, rfl⟩, _⟩
            rfl
        · rename_i hge
          constructor
          · intro hcon
            exact absurd hcon (by simp)
          · rintro ⟨ts2, heq, hlt⟩
            simp only [Option.some.injEq, CacheCell.valid.injEq] at heq
            obtain ⟨rfl, rfl⟩ := heq
            exact absurd hlt hge
  · intro ts si2 hge
    simp only [loadCachedStatus]
    rw [if_neg (by omega)]
  · unfold handleRefresh
    by_cases hch : ({ st with cache := none } : StatusState).isChecking = true
    · refine Or.inl ?_
      unfold checkClaudeStatus
      rw [if_pos hch]
    · have hred : checkClaudeStatus { st with cache := none } now api =
          releaseGuard (performCheck (acquireGuard { st with cache := none })
            now api) := by
        unfold checkClaudeStatus
        rw [if_neg hch]
      rw [hred]
      cases api with
      | ok r =>
        by_cases hcli : st.selectedCli = CliType.claude
        · refine Or.inr ⟨⟨if r.installed then ConnectionStatus.connected
            else ConnectionStatus.disconnected, r.version, !r.installed, some now⟩, ?_⟩
          show (if st.selectedCli = CliType.claude then _ else _) = _
          rw [if_pos hcli]
        · refine Or.inl ?_
          show (if st.selectedCli = CliType.claude then _ else _) = _
          rw [if_neg hcli]
          rfl
      | error e =>
        by_cases hcli : st.selectedCli = CliType.claude
        · refine Or.inr ⟨⟨ConnectionStatus.error, none, true, some now⟩, ?_⟩
          show (if st.selectedCli = CliType.claude then _ else _) = _
          rw [if_pos hcli]
        · refine Or.inl ?_
          show (if st.selectedCli = CliType.claude then _ else _) = _
          rw [if_neg hcli]
          rfl

/-- Witness for the cache theorem at a concrete entry and the sample state. -/
theorem statusCache_timeboxed_witness :
    (loadCachedStatus (some (CacheCell.valid connectedInfo 100)) 200 =
      some connectedInfo ↔
      ∃ ts, (some (CacheCell.valid connectedInfo 100) : Option CacheCell) =
        some (CacheCell.valid connectedInfo ts) ∧
        ((200 : Nat) : Int) - (ts : Int) < (CACHE_DURATION : Int)) ∧
    loadCachedStatus none 200 = none ∧
    loadCachedStatus (some CacheCell.malformed) 200 = none ∧
    (∀ (ts : Nat) (si2 : StatusInfo),
      (CACHE_DURATION : Int) ≤ ((200 : Nat) : Int) - (ts : Int) →
      loadCachedStatus (some (CacheCell.valid si2 ts)) 200 = none) ∧
    ((handleRefresh sampleStatusState 200 (Except.error ())).cache = none ∨
      ∃ si3, (handleRefresh sampleStatusState 200 (Except.error ())).cache =
        some (CacheCell.valid si3 200)) :=
  statusCache_timeboxed (some (CacheCell.valid connectedInfo 100)) 200
    connectedInfo sampleStatusState (Except.error ())

/-- C10: the close-all and close-others menu actions force-close every
targeted tab: close-all empties the store and close-others removes every
inactive tab, unsaved changes notwithstanding, and no call in either sweep
ever returns a pending-confirmation result, so the confirmation dialog is
never shown. -/
theorem bulkClose_forces_removal (s : TabStore)
    (hnd : (s.tabs.map Tab.id).Nodup) :
    (closeAllTabs s).1.tabs = [] ∧
    (∀ r ∈ (closeAllTabs s).2, r = CloseResult.closed) ∧
    (∀ r ∈ (closeOtherTabs s).2, r = CloseResult.closed) ∧
    (∀ t ∈ s.tabs, t.isActive = false →
      t.id ∉ (closeOtherTabs s).1.tabs.map Tab.id) ∧
    (closeAllTabs mixedStore).1.tabs = [] ∧
    (∀ r ∈ (closeAllTabs mixedStore).2, r = CloseResult.closed) := by
  refine ⟨?_, closeTabsForce_all_closed s _, closeTabsForce_all_closed s _, ?_,
    by decide, by decide⟩
  · have h1 : (closeAllTabs s).1.tabs.map Tab.id = [] := by
      show ((closeTabsForce s (s.tabs.map Tab.id)).1).tabs.map Tab.id = []
      rw [closeTabsForce_map_id, foldl_erase_self _ hnd]
    exact List.map_eq_nil_iff.1 h1
  · intro t ht hia
    have hmemL : t.id ∈ (s.tabs.filter fun x => !x.isActive).map Tab.id :=
      List.mem_map_of_mem _ (List.mem_filter.2 ⟨ht, by simp [hia]⟩)
    show t.id ∉ ((closeTabsForce s
      ((s.tabs.filter fun x => !x.isActive).map Tab.id)).1).tabs.map Tab.id
    rw [closeTabsForce_map_id]
    exact target_not_mem_foldl_erase _ _ _ hnd hmemL

/-- Witness for the bulk-close theorem at the mixed store with unsaved
tabs. -/
theorem bulkClose_forces_removal_witness :
    (mixedStore.tabs.map Tab.id).Nodup ∧
    ((closeAllTabs mixedStore).1.tabs = [] ∧
    (∀ r ∈ (closeAllTabs mixedStore).2, r = CloseResult.closed) ∧
    (∀ r ∈ (closeOtherTabs mixedStore).2, r = CloseResult.closed) ∧
    (∀ t ∈ mixedStore.tabs, t.isActive = false →
      t.id ∉ (closeOtherTabs mixedStore).1.tabs.map Tab.id) ∧
    (closeAllTabs mixedStore).1.tabs = [] ∧
    (∀ r ∈ (closeAllTabs mixedStore).2, r = CloseResult.closed)) :=
  ⟨by decide, bulkClose_forces_removal mixedStore (by decide)⟩

end ClaudeWorkbench
